import Mathlib

/-!
Verification development for the HD44780 / PCF8574 LCD driver
(`Libs/lcd_i2c_driver/lcd_hd44780_pcf8574_driver.c` of the
`Oven_controller_firmware_prototype`).

The C driver is shallowly embedded: every global of the C file becomes a
field of `DriverState`, every function becomes a Lean function on that
state, and machine bytes are `Nat` with explicit `% 256` where the C
`uint8_t` truncation matters.  The STM HAL is abstracted by an `Env`
oracle per flush step: `errLatched` is the result of
`HAL_I2C_GetError(...) != HAL_I2C_ERROR_NONE` and `txAccepts` tells
whether `HAL_I2C_Master_Transmit_DMA(...)` returns `HAL_OK`.  Accepted
DMA transfers are recorded (entry and 6-byte frame) in the observable
`transmitted` log; `txCount` counts accepted transfer initiations and
`cbCount` counts HAL completion / error callbacks that have run.
`enqueuedLog` records every entry accepted by `enq`, in order.

The C `enq` busy-waits on a full queue with a 10 ms deadline.  Within a
single call no concurrent consumer can run in this interleaving model
(ISR-driven dequeues are separate trace events), so a full queue stays
full for the whole wait and the deadline elapses: the embedding resolves
the wait deterministically, exactly as the single-threaded execution of
the C does.
-/

namespace LCDDriver

/-- Bytes are machine `uint8_t` values, represented as `Nat < 256`. -/
def QUEUE_SIZE : Nat := 32

def RS_DATA_REG : Nat := 0x01
def RS_INSTR_REG : Nat := 0
def EN_BIT : Nat := 0x04
def BL_ON : Nat := 0x08
def BL_OFF : Nat := 0
def CLEAR_DISPLAY_INSTR : Nat := 0x01
def RETURN_HOME_INSTR : Nat := 0x02
def SET_DDRAM_ADDR_INSTR_BIT : Nat := 0x80
def DDRAM_ADDR_R0C0 : Nat := 0
def DDRAM_ADDR_R1C0 : Nat := 0x40
def DDRAM_ADDR_R2C0 : Nat := 0x14
def DDRAM_ADDR_R3C0 : Nat := 0x54

inductive LCDStatus where
  | LCD_OK
  | LCD_QUEUE_PAUSED_AND_FULL
  | LCD_QUEUE_FULL_TIMEOUT
  | LCD_QUEUE_EMPTY
  | LCD_I2C_TX_INIT_FAIL
  | LCD_I2C_ERROR
deriving DecidableEq, Repr

open LCDStatus

/-- Queue entry `QueueEntry_t`: register-select bit and data byte. -/
structure QueueEntry where
  rs : Nat
  data : Nat
deriving DecidableEq, Repr

/-- Oracle for one flush step, abstracting the two HAL calls inside
`txByte`. -/
structure Env where
  errLatched : Bool
  txAccepts : Bool
deriving DecidableEq, Repr

/-- All module-scope mutable state of the C file, plus the observable
logs of the abstracted HAL (`transmitted`, `txCount`, `cbCount`) and the
ghost log of accepted enqueues (`enqueuedLog`). -/
structure DriverState where
  queue : List QueueEntry
  qWriteIdx : Nat
  qReadIdx : Nat
  qEntryCount : Nat
  qPaused : Bool
  flushInProgress : Bool
  i2cErrorPending : Bool
  lcdStatus : LCDStatus
  bl : Nat
  transmitted : List (QueueEntry × List Nat)
  txCount : Nat
  cbCount : Nat
  enqueuedLog : List QueueEntry
deriving DecidableEq, Repr

/-- Enqueue `enq`: wait bounded by 10 ms for a slot, then write at `qWriteIdx`.
In the interleaving model a full queue stays full during the wait, so
full-and-paused returns `LCD_QUEUE_PAUSED_AND_FULL` and full-not-paused
hits the deadline, pauses the queue and returns
`LCD_QUEUE_FULL_TIMEOUT`. -/
def enq (e : QueueEntry) (s : DriverState) : LCDStatus × DriverState :=
  if s.qEntryCount ≥ QUEUE_SIZE then
    if s.qPaused then (LCD_QUEUE_PAUSED_AND_FULL, s)
    else (LCD_QUEUE_FULL_TIMEOUT, { s with qPaused := true })
  else
    (LCD_OK, { s with
      queue := s.queue.set s.qWriteIdx e,
      qWriteIdx := (s.qWriteIdx + 1) % QUEUE_SIZE,
      qEntryCount := s.qEntryCount + 1,
      enqueuedLog := s.enqueuedLog ++ [e] })

/-- Peek `qPeek`: copy the entry under `qReadIdx` without advancing. -/
def qPeek (s : DriverState) : LCDStatus × QueueEntry :=
  if s.qEntryCount = 0 then (LCD_QUEUE_EMPTY, ⟨0, 0⟩)
  else (LCD_OK, s.queue.getD s.qReadIdx ⟨0, 0⟩)

/-- Dequeue `deq`: advance `qReadIdx`, decrement `qEntryCount`. -/
def deq (s : DriverState) : LCDStatus × DriverState :=
  if s.qEntryCount = 0 then (LCD_QUEUE_EMPTY, s)
  else (LCD_OK, { s with
    qReadIdx := (s.qReadIdx + 1) % QUEUE_SIZE,
    qEntryCount := s.qEntryCount - 1 })

/-- The 6-byte buffer built at the top of `txByte`.  Each C assignment
to a `uint8_t` cell truncates mod 256 (relevant for `data << 4`). -/
def txFrame (blv rs data : Nat) : List Nat :=
  let b0 := ((data &&& 0xf0) ||| rs ||| blv) % 256
  let b3 := ((data <<< 4) ||| rs ||| blv) % 256
  [b0, (b0 ||| EN_BIT) % 256, b0, b3, (b3 ||| EN_BIT) % 256, b3]

/-- Transmit step `txByte`: build the frame; pause on the second consecutive latched
I2C error; otherwise hand the frame to `HAL_I2C_Master_Transmit_DMA`
(recorded in `transmitted` when the HAL accepts). -/
def txByte (env : Env) (rs data : Nat) (s : DriverState) :
    LCDStatus × DriverState :=
  let issue : DriverState → LCDStatus × DriverState := fun s1 =>
    if env.txAccepts then
      (LCD_OK, { s1 with
        transmitted := s1.transmitted ++ [(⟨rs, data⟩, txFrame s1.bl rs data)],
        txCount := s1.txCount + 1 })
    else (LCD_I2C_TX_INIT_FAIL, s1)
  if env.errLatched then
    if s.i2cErrorPending then
      (LCD_I2C_ERROR, { s with qPaused := true, i2cErrorPending := false })
    else issue { s with i2cErrorPending := true }
  else issue { s with i2cErrorPending := false }

/-- Flush step `flush`: peek, transmit, dequeue on success; on any failure clear
`flushInProgress` and leave the entry in place. -/
def flush (env : Env) (s : DriverState) : LCDStatus × DriverState :=
  let pk := qPeek s
  if pk.1 = LCD_OK then
    let r := txByte env pk.2.rs pk.2.data s
    if r.1 = LCD_OK then (r.1, (deq r.2).2)
    else (r.1, { r.2 with flushInProgress := false })
  else (pk.1, { s with flushInProgress := false })

/-- Enqueue-and-kick `enqAndBeginFlushing`. -/
def enqAndBeginFlushing (env : Env) (e : QueueEntry) (s : DriverState) :
    LCDStatus × DriverState :=
  let r := enq e s
  if r.1 ≠ LCD_OK then (r.1, { r.2 with lcdStatus := r.1 })
  else if r.2.flushInProgress || r.2.qPaused then
    (LCD_OK, { r.2 with lcdStatus := LCD_OK })
  else
    let r2 := flush env { r.2 with flushInProgress := true }
    (r2.1, { r2.2 with lcdStatus := r2.1 })

/-- Completion adapter `lcdFlushQueue`: body of the HAL transfer-complete callback. -/
def lcdFlushQueue (env : Env) (s : DriverState) : DriverState :=
  if s.qPaused then { s with flushInProgress := false, lcdStatus := LCD_OK }
  else
    let r := flush env s
    { r.2 with lcdStatus := r.1 }

/-- Error adapter `lcdi2cErrorHandler`: body of the HAL error callback. -/
def lcdi2cErrorHandler (s : DriverState) : DriverState :=
  { s with flushInProgress := false }

def lcdQueuePause (s : DriverState) : DriverState :=
  { s with qPaused := true }

def lcdQueueResume (env : Env) (s : DriverState) : LCDStatus × DriverState :=
  let s1 := { s with qPaused := false }
  if s1.flushInProgress then (LCD_OK, s1)
  else flush env { s1 with flushInProgress := true }

def lcdQueueIsPaused (s : DriverState) : Bool :=
  s.qPaused && s.flushInProgress

def lcdQueueIsFull (s : DriverState) : Bool :=
  s.qEntryCount ≥ QUEUE_SIZE

def lcdGetStatus (s : DriverState) : LCDStatus := s.lcdStatus

def lcdPrintChar (env : Env) (c : Nat) (s : DriverState) :
    LCDStatus × DriverState :=
  enqAndBeginFlushing env ⟨RS_DATA_REG, c⟩ s

/-- String printing `lcdPrintStr`.  The C local `LCDStatus_t status;` is uninitialised;
its indeterminate initial value is the explicit `junk` parameter, which
is returned untouched exactly when the string is empty (the loop body
never runs).  Each character carries its own HAL oracle. -/
def lcdPrintStr (junk : LCDStatus) (l : List (Nat × Env)) (s : DriverState) :
    LCDStatus × DriverState :=
  match l with
  | [] => (junk, s)
  | (c, env) :: rest =>
    let r := lcdPrintChar env c s
    if r.1 ≠ LCD_OK then r
    else
      match rest with
      | [] => r
      | _ :: _ => lcdPrintStr junk rest r.2

def lcdSetBacklight (state : Bool) (s : DriverState) : DriverState :=
  { s with bl := if state then BL_ON else BL_OFF }

def lcdSetBacklightNow (env : Env) (state : Bool) (s : DriverState) :
    LCDStatus × DriverState :=
  enqAndBeginFlushing env ⟨RS_INSTR_REG, 0⟩ (lcdSetBacklight state s)

/-- Clear `lcdClear`: the `(INSTR, 0x01)` entry, the three-iteration padding
loop, then `enqAndBeginFlushing` on the (reused) zero entry. -/
def lcdClear (env : Env) (s : DriverState) : LCDStatus × DriverState :=
  let r1 := enq ⟨RS_INSTR_REG, CLEAR_DISPLAY_INSTR⟩ s
  if r1.1 ≠ LCD_OK then r1
  else
    let r2 := enq ⟨RS_INSTR_REG, 0⟩ r1.2
    if r2.1 ≠ LCD_OK then r2
    else
      let r3 := enq ⟨RS_INSTR_REG, 0⟩ r2.2
      if r3.1 ≠ LCD_OK then r3
      else
        let r4 := enq ⟨RS_INSTR_REG, 0⟩ r3.2
        if r4.1 ≠ LCD_OK then r4
        else enqAndBeginFlushing env ⟨RS_INSTR_REG, 0⟩ r4.2

def lcdReturnHome (env : Env) (s : DriverState) : LCDStatus × DriverState :=
  let r1 := enq ⟨RS_INSTR_REG, RETURN_HOME_INSTR⟩ s
  if r1.1 ≠ LCD_OK then r1
  else
    let r2 := enq ⟨RS_INSTR_REG, 0⟩ r1.2
    if r2.1 ≠ LCD_OK then r2
    else
      let r3 := enq ⟨RS_INSTR_REG, 0⟩ r2.2
      if r3.1 ≠ LCD_OK then r3
      else
        let r4 := enq ⟨RS_INSTR_REG, 0⟩ r3.2
        if r4.1 ≠ LCD_OK then r4
        else enqAndBeginFlushing env ⟨RS_INSTR_REG, 0⟩ r4.2

/-- Cursor positioning `lcdSetCursorPos`.  The C local `QueueEntry_t e;` leaves `e.data`
uninitialised in the `default:` branch (row ≥ 4); that indeterminate
stack value is the explicit `junkData` parameter.  Additions are
`uint8_t` arithmetic, hence `% 256`. -/
def lcdSetCursorPos (env : Env) (junkData : Nat) (row col : Nat)
    (s : DriverState) : LCDStatus × DriverState :=
  let d : Nat :=
    match row with
    | 0 => ((SET_DDRAM_ADDR_INSTR_BIT ||| DDRAM_ADDR_R0C0) + col) % 256
    | 1 => ((SET_DDRAM_ADDR_INSTR_BIT ||| DDRAM_ADDR_R1C0) + col) % 256
    | 2 => ((SET_DDRAM_ADDR_INSTR_BIT ||| DDRAM_ADDR_R2C0) + col) % 256
    | 3 => ((SET_DDRAM_ADDR_INSTR_BIT ||| DDRAM_ADDR_R3C0) + col) % 256
    | _ => junkData
  enqAndBeginFlushing env ⟨RS_INSTR_REG, d⟩ s

/-- The C globals at program start (statics are zero-initialised, except
the explicit initialisers: `bl = BL_ON`). -/
def initState : DriverState where
  queue := List.replicate QUEUE_SIZE ⟨0, 0⟩
  qWriteIdx := 0
  qReadIdx := 0
  qEntryCount := 0
  qPaused := false
  flushInProgress := false
  i2cErrorPending := false
  lcdStatus := LCD_OK
  bl := BL_ON
  transmitted := []
  txCount := 0
  cbCount := 0
  enqueuedLog := []

/-- The multiset-free view of the live ring-buffer contents:
`queue[qReadIdx .. qReadIdx + qEntryCount) (mod QUEUE_SIZE)` in order. -/
def liveListQ (s : DriverState) : List QueueEntry :=
  (List.range s.qEntryCount).map
    (fun i => s.queue.getD ((s.qReadIdx + i) % QUEUE_SIZE) ⟨0, 0⟩)

/-- The trace alphabet: API calls and the two HAL callbacks.  `apiEnq`
is the generic single-entry API body (`enqAndBeginFlushing` with a
caller-built entry), which subsumes all the settings / shift / print
wrappers. -/
inductive Event where
  | printChar (c : Nat) (env : Env)
  | printStr (junk : LCDStatus) (l : List (Nat × Env))
  | apiEnq (e : QueueEntry) (env : Env)
  | setBacklight (state : Bool)
  | clear (env : Env)
  | returnHome (env : Env)
  | setCursorPos (junkData : Nat) (row col : Nat) (env : Env)
  | pause
  | resume (env : Env)
  | cbComplete (env : Env)
  | cbError
deriving DecidableEq, Repr

def step : Event → DriverState → DriverState
  | .printChar c env, s => (lcdPrintChar env c s).2
  | .printStr junk l, s => (lcdPrintStr junk l s).2
  | .apiEnq e env, s => (enqAndBeginFlushing env e s).2
  | .setBacklight b, s => lcdSetBacklight b s
  | .clear env, s => (lcdClear env s).2
  | .returnHome env, s => (lcdReturnHome env s).2
  | .setCursorPos j r c env, s => (lcdSetCursorPos env j r c s).2
  | .pause, s => lcdQueuePause s
  | .resume env, s => (lcdQueueResume env s).2
  | .cbComplete env, s => lcdFlushQueue env { s with cbCount := s.cbCount + 1 }
  | .cbError, s => lcdi2cErrorHandler { s with cbCount := s.cbCount + 1 }

/-- Physical side condition on traces: a HAL completion or error
callback only fires for a transfer that is actually in flight. -/
def Valid (s : DriverState) : Event → Prop
  | .cbComplete _ => s.txCount = s.cbCount + 1
  | .cbError => s.txCount = s.cbCount + 1
  | _ => True

inductive Reachable : DriverState → Prop where
  | init : Reachable initState
  | next {s : DriverState} (ev : Event) :
      Reachable s → Valid s ev → Reachable (step ev s)


/-- The master invariant of all reachable driver states: ring-buffer
well-formedness, backlight range, at-most-one-in-flight accounting, and
the FIFO correspondence between the transmit log, the live queue
contents and the enqueue log. -/
structure Inv (s : DriverState) : Prop where
  hlen : s.queue.length = QUEUE_SIZE
  hr : s.qReadIdx < QUEUE_SIZE
  hc : s.qEntryCount ≤ QUEUE_SIZE
  hw : s.qWriteIdx = (s.qReadIdx + s.qEntryCount) % QUEUE_SIZE
  hbl : s.bl = BL_OFF ∨ s.bl = BL_ON
  hcb : s.cbCount ≤ s.txCount
  htx : s.txCount ≤ s.cbCount + 1
  hflag : s.txCount = s.cbCount + 1 → s.flushInProgress = true
  hfifo : s.transmitted.map Prod.fst ++ liveListQ s = s.enqueuedLog
  hframes : ∀ p ∈ s.transmitted,
    ∃ b, (b = BL_OFF ∨ b = BL_ON) ∧ p.2 = txFrame b p.1.rs p.1.data


def envTX : Env := ⟨false, true⟩
def envRefuse : Env := ⟨false, false⟩
def envErrTX : Env := ⟨true, true⟩
def pausedEmptyState : DriverState := { initState with qPaused := true }
def busyState : DriverState := { initState with flushInProgress := true }
def oneEntryState : DriverState := { initState with qEntryCount := 1 }
def fullPausedState : DriverState :=
  { initState with qEntryCount := QUEUE_SIZE, qPaused := true }


theorem getD_set_self {α : Type} (l : List α) (n : Nat) (a d : α)
    (h : n < l.length) : (l.set n a).getD n d = a := by
  induction l generalizing n with
  | nil => simp at h
  | cons x xs ih =>
    cases n with
    | zero => simp [List.getD]
    | succ m =>
      simp only [List.set, List.getD, List.get?] at *
      exact ih m (by simpa using h)

theorem getD_set_ne {α : Type} (l : List α) (n m : Nat) (a d : α)
    (h : n ≠ m) : (l.set n a).getD m d = l.getD m d := by
  induction l generalizing n m with
  | nil => simp
  | cons x xs ih =>
    cases n with
    | zero =>
      cases m with
      | zero => exact absurd rfl h
      | succ k => simp [List.getD]
    | succ j =>
      cases m with
      | zero => simp [List.getD]
      | succ k =>
        simp only [List.set, List.getD, List.get?]
        exact ih j k (fun hc => h (by rw [hc]))

/- Branch shapes of the queue operations and of `flush`. -/

theorem enq_full_paused (e : QueueEntry) (s : DriverState)
    (h : s.qEntryCount ≥ QUEUE_SIZE) (hp : s.qPaused = true) :
    enq e s = (LCD_QUEUE_PAUSED_AND_FULL, s) := by
  simp [enq, h, hp]

theorem enq_full_timeout (e : QueueEntry) (s : DriverState)
    (h : s.qEntryCount ≥ QUEUE_SIZE) (hp : s.qPaused = false) :
    enq e s = (LCD_QUEUE_FULL_TIMEOUT, { s with qPaused := true }) := by
  simp [enq, h, hp]

theorem enq_lt_eq (e : QueueEntry) (s : DriverState)
    (h : s.qEntryCount < QUEUE_SIZE) :
    enq e s = (LCD_OK, { s with
      queue := s.queue.set s.qWriteIdx e,
      qWriteIdx := (s.qWriteIdx + 1) % QUEUE_SIZE,
      qEntryCount := s.qEntryCount + 1,
      enqueuedLog := s.enqueuedLog ++ [e] }) := by
  have : ¬ s.qEntryCount ≥ QUEUE_SIZE := by omega
  simp [enq, this]

theorem flush_empty (env : Env) (s : DriverState) (h : s.qEntryCount = 0) :
    flush env s = (LCD_QUEUE_EMPTY, { s with flushInProgress := false }) := by
  simp [flush, qPeek, h]

theorem flush_errPause (env : Env) (s : DriverState)
    (h0 : s.qEntryCount ≠ 0) (he : env.errLatched = true)
    (hp : s.i2cErrorPending = true) :
    flush env s = (LCD_I2C_ERROR, { s with
      qPaused := true, i2cErrorPending := false, flushInProgress := false }) := by
  simp [flush, qPeek, txByte, h0, he, hp]

theorem flush_txOk (env : Env) (s : DriverState)
    (h0 : s.qEntryCount ≠ 0) (hacc : env.txAccepts = true)
    (hok : ¬(env.errLatched = true ∧ s.i2cErrorPending = true)) :
    flush env s = (LCD_OK, { s with
      i2cErrorPending := env.errLatched,
      transmitted := s.transmitted ++
        [(s.queue.getD s.qReadIdx ⟨0, 0⟩,
          txFrame s.bl (s.queue.getD s.qReadIdx ⟨0, 0⟩).rs
            (s.queue.getD s.qReadIdx ⟨0, 0⟩).data)],
      txCount := s.txCount + 1,
      qReadIdx := (s.qReadIdx + 1) % QUEUE_SIZE,
      qEntryCount := s.qEntryCount - 1 }) := by
  cases he : env.errLatched with
  | false => simp [flush, qPeek, txByte, deq, h0, hacc, he]
  | true =>
    have hp : s.i2cErrorPending = false := by
      cases hp : s.i2cErrorPending
      · rfl
      · exact absurd ⟨he, hp⟩ hok
    simp [flush, qPeek, txByte, deq, h0, hacc, he, hp]

theorem flush_txFail (env : Env) (s : DriverState)
    (h0 : s.qEntryCount ≠ 0) (hacc : env.txAccepts = false)
    (hok : ¬(env.errLatched = true ∧ s.i2cErrorPending = true)) :
    flush env s = (LCD_I2C_TX_INIT_FAIL, { s with
      i2cErrorPending := env.errLatched, flushInProgress := false }) := by
  cases he : env.errLatched with
  | false => simp [flush, qPeek, txByte, h0, hacc, he]
  | true =>
    have hp : s.i2cErrorPending = false := by
      cases hp : s.i2cErrorPending
      · rfl
      · exact absurd ⟨he, hp⟩ hok
    simp [flush, qPeek, txByte, h0, hacc, he, hp]


theorem liveListQ_congr (s t : DriverState) (hq : t.queue = s.queue)
    (hr : t.qReadIdx = s.qReadIdx) (hc : t.qEntryCount = s.qEntryCount) :
    liveListQ t = liveListQ s := by
  simp [liveListQ, hq, hr, hc]

theorem liveListQ_enq_append (e : QueueEntry) (s : DriverState)
    (hlen : s.queue.length = QUEUE_SIZE) (_hr : s.qReadIdx < QUEUE_SIZE)
    (hw : s.qWriteIdx = (s.qReadIdx + s.qEntryCount) % QUEUE_SIZE)
    (hc : s.qEntryCount < QUEUE_SIZE) :
    liveListQ { s with queue := s.queue.set s.qWriteIdx e,
                       qWriteIdx := (s.qWriteIdx + 1) % QUEUE_SIZE,
                       qEntryCount := s.qEntryCount + 1,
                       enqueuedLog := s.enqueuedLog ++ [e] }
      = liveListQ s ++ [e] := by
  simp only [liveListQ]
  rw [List.range_succ, List.map_append, List.map_cons, List.map_nil]
  congr 1
  · rw [List.map_eq_map_iff]
    intro i hi
    rw [List.mem_range] at hi
    apply getD_set_ne
    rw [hw]
    simp only [QUEUE_SIZE] at *
    omega
  · congr 1
    rw [← hw]
    refine getD_set_self _ _ _ _ ?_
    rw [hlen, hw]
    simp only [QUEUE_SIZE]
    omega

theorem liveListQ_deq_cons (s : DriverState)
    (hr : s.qReadIdx < QUEUE_SIZE) (hc : s.qEntryCount ≠ 0) :
    liveListQ s = s.queue.getD s.qReadIdx ⟨0, 0⟩ ::
      liveListQ { s with qReadIdx := (s.qReadIdx + 1) % QUEUE_SIZE,
                         qEntryCount := s.qEntryCount - 1 } := by
  obtain ⟨k, hk⟩ : ∃ k, s.qEntryCount = k + 1 := ⟨s.qEntryCount - 1, by omega⟩
  simp only [liveListQ, hk, Nat.add_sub_cancel]
  rw [List.range_succ_eq_map]
  simp only [List.map_cons, List.map_map]
  congr 1
  · rw [Nat.add_zero, Nat.mod_eq_of_lt hr]
  · rw [List.map_eq_map_iff]
    intro i hi
    simp only [Function.comp]
    congr 1
    simp only [QUEUE_SIZE] at *
    omega

/-- Inv transfers to any state sharing the ring buffer, the logs, the
counters and the backlight, provided the in-flight implication holds. -/
theorem Inv_of_fields {s : DriverState} (t : DriverState)
    (hq : t.queue = s.queue) (hwi : t.qWriteIdx = s.qWriteIdx)
    (hri : t.qReadIdx = s.qReadIdx) (hci : t.qEntryCount = s.qEntryCount)
    (hblv : t.bl = s.bl) (htxv : t.txCount = s.txCount)
    (hcbv : t.cbCount = s.cbCount) (htr : t.transmitted = s.transmitted)
    (hlog : t.enqueuedLog = s.enqueuedLog)
    (hfl : s.txCount = s.cbCount + 1 → t.flushInProgress = true)
    (hI : Inv s) : Inv t := by
  refine ⟨?_, ?_, ?_, ?_, ?_, ?_, ?_, ?_, ?_, ?_⟩
  · rw [hq]; exact hI.hlen
  · rw [hri]; exact hI.hr
  · rw [hci]; exact hI.hc
  · rw [hwi, hri, hci]; exact hI.hw
  · rw [hblv]; exact hI.hbl
  · rw [htxv, hcbv]; exact hI.hcb
  · rw [htxv, hcbv]; exact hI.htx
  · rw [htxv, hcbv]; exact hfl
  · rw [htr, hlog, liveListQ_congr s t hq hri hci]; exact hI.hfifo
  · rw [htr]; exact hI.hframes

theorem Inv_enq (e : QueueEntry) {s : DriverState} (hI : Inv s) :
    Inv (enq e s).2 := by
  by_cases hfull : s.qEntryCount ≥ QUEUE_SIZE
  · cases hp : s.qPaused with
    | true =>
      rw [enq_full_paused e s hfull hp]
      exact hI
    | false =>
      rw [enq_full_timeout e s hfull hp]
      exact Inv_of_fields (s := s) _ rfl rfl rfl rfl rfl rfl rfl rfl rfl hI.hflag hI
  · have hlt : s.qEntryCount < QUEUE_SIZE := by omega
    rw [enq_lt_eq e s hlt]
    have hwv := hI.hw
    have hrv := hI.hr
    simp only [QUEUE_SIZE] at hwv hrv hlt
    refine ⟨?_, ?_, ?_, ?_, hI.hbl, hI.hcb, hI.htx, hI.hflag, ?_, hI.hframes⟩
    · show (s.queue.set s.qWriteIdx e).length = QUEUE_SIZE
      rw [List.length_set]; exact hI.hlen
    · show s.qReadIdx < QUEUE_SIZE
      exact hI.hr
    · show s.qEntryCount + 1 ≤ QUEUE_SIZE
      simp only [QUEUE_SIZE]; omega
    · show (s.qWriteIdx + 1) % QUEUE_SIZE
        = (s.qReadIdx + (s.qEntryCount + 1)) % QUEUE_SIZE
      simp only [QUEUE_SIZE]; omega
    · show s.transmitted.map Prod.fst ++ liveListQ _ = s.enqueuedLog ++ [e]
      rw [liveListQ_enq_append e s hI.hlen hI.hr hI.hw hlt]
      rw [← List.append_assoc, hI.hfifo]

theorem Inv_flush (env : Env) {s : DriverState} (hI : Inv s)
    (hF : s.flushInProgress = true) (hTc : s.txCount = s.cbCount) :
    Inv (flush env s).2 := by
  by_cases h0 : s.qEntryCount = 0
  · rw [flush_empty env s h0]
    exact Inv_of_fields (s := s) _ rfl rfl rfl rfl rfl rfl rfl rfl rfl
      (fun h => absurd h (by omega)) hI
  · by_cases herr : env.errLatched = true ∧ s.i2cErrorPending = true
    · rw [flush_errPause env s h0 herr.1 herr.2]
      exact Inv_of_fields (s := s) _ rfl rfl rfl rfl rfl rfl rfl rfl rfl
        (fun h => absurd h (by omega)) hI
    · cases hacc : env.txAccepts with
      | false =>
        rw [flush_txFail env s h0 hacc herr]
        exact Inv_of_fields (s := s) _ rfl rfl rfl rfl rfl rfl rfl rfl rfl
          (fun h => absurd h (by omega)) hI
      | true =>
        rw [flush_txOk env s h0 hacc herr]
        have hdq := liveListQ_deq_cons s hI.hr h0
        have hcv := hI.hc
        have hwv := hI.hw
        have hrv := hI.hr
        simp only [QUEUE_SIZE] at hcv hwv hrv
        refine ⟨?_, ?_, ?_, ?_, hI.hbl, ?_, ?_, fun _ => hF, ?_, ?_⟩
        · show s.queue.length = QUEUE_SIZE
          exact hI.hlen
        · show (s.qReadIdx + 1) % QUEUE_SIZE < QUEUE_SIZE
          simp only [QUEUE_SIZE]; omega
        · show s.qEntryCount - 1 ≤ QUEUE_SIZE
          simp only [QUEUE_SIZE]; omega
        · show s.qWriteIdx
            = ((s.qReadIdx + 1) % QUEUE_SIZE + (s.qEntryCount - 1)) % QUEUE_SIZE
          simp only [QUEUE_SIZE]; omega
        · show s.cbCount ≤ s.txCount + 1
          omega
        · show s.txCount + 1 ≤ s.cbCount + 1
          omega
        · show (s.transmitted ++ _).map Prod.fst ++ liveListQ _ = s.enqueuedLog
          refine Eq.trans ?_ hI.hfifo
          simp only [List.map_append, List.map_cons, List.map_nil,
            List.append_assoc, List.singleton_append]
          congr 1
          rw [hdq]
          congr 1
        · show ∀ p ∈ s.transmitted ++ _, ∃ b,
            (b = BL_OFF ∨ b = BL_ON) ∧ p.2 = txFrame b p.1.rs p.1.data
          intro p hp
          rw [List.mem_append] at hp
          cases hp with
          | inl h => exact hI.hframes p h
          | inr h =>
            rw [List.mem_singleton] at h
            subst h
            exact ⟨s.bl, hI.hbl, rfl⟩


theorem enq_flags (e : QueueEntry) (s : DriverState) :
    (enq e s).2.flushInProgress = s.flushInProgress ∧
    (enq e s).2.txCount = s.txCount ∧ (enq e s).2.cbCount = s.cbCount := by
  by_cases hfull : s.qEntryCount ≥ QUEUE_SIZE
  · cases hp : s.qPaused with
    | true => rw [enq_full_paused e s hfull hp]; exact ⟨rfl, rfl, rfl⟩
    | false => rw [enq_full_timeout e s hfull hp]; exact ⟨rfl, rfl, rfl⟩
  · rw [enq_lt_eq e s (by omega)]; exact ⟨rfl, rfl, rfl⟩

theorem Inv_setStatus {s : DriverState} (st : LCDStatus) (hI : Inv s) :
    Inv { s with lcdStatus := st } :=
  Inv_of_fields (s := s) _ rfl rfl rfl rfl rfl rfl rfl rfl rfl hI.hflag hI

theorem Inv_enqABF (env : Env) (e : QueueEntry) {s : DriverState}
    (hI : Inv s) : Inv (enqAndBeginFlushing env e s).2 := by
  have hI1 : Inv (enq e s).2 := Inv_enq e hI
  by_cases hok : (enq e s).1 ≠ LCD_OK
  · simp only [enqAndBeginFlushing, if_pos hok]
    exact Inv_setStatus _ hI1
  · simp only [enqAndBeginFlushing, if_neg hok]
    by_cases hb : ((enq e s).2.flushInProgress || (enq e s).2.qPaused) = true
    · rw [if_pos hb]
      exact Inv_setStatus _ hI1
    · rw [if_neg hb]
      have hb2 := hb
      simp only [Bool.or_eq_true, not_or, Bool.not_eq_true] at hb2
      have hfp : (enq e s).2.flushInProgress = false := hb2.1
      have hTcS : s.txCount = s.cbCount := by
        have hflags := enq_flags e s
        have hsf : s.flushInProgress = false := by
          rw [← hflags.1]; exact hfp
        have := hI.hcb
        have := hI.htx
        rcases Nat.lt_or_ge s.txCount (s.cbCount + 1) with h | h
        · omega
        · exfalso
          have heq : s.txCount = s.cbCount + 1 := by omega
          have := hI.hflag heq
          rw [this] at hsf
          exact Bool.noConfusion hsf
      have hIσ : Inv { (enq e s).2 with flushInProgress := true } :=
        Inv_of_fields (s := (enq e s).2) _ rfl rfl rfl rfl rfl rfl rfl rfl rfl
          (fun _ => rfl) hI1
      have hTc : ({ (enq e s).2 with flushInProgress := true } :
          DriverState).txCount
          = ({ (enq e s).2 with flushInProgress := true } :
          DriverState).cbCount := by
        show (enq e s).2.txCount = (enq e s).2.cbCount
        rw [(enq_flags e s).2.1, (enq_flags e s).2.2]
        exact hTcS
      exact Inv_setStatus _ (Inv_flush env hIσ rfl hTc)


theorem Inv_printStr (junk : LCDStatus) (l : List (Nat × Env)) :
    ∀ s : DriverState, Inv s → Inv (lcdPrintStr junk l s).2 := by
  induction l with
  | nil => intro s hI; exact hI
  | cons p rest ih =>
    intro s hI
    obtain ⟨c, env⟩ := p
    have hI1 : Inv (lcdPrintChar env c s).2 := Inv_enqABF env _ hI
    by_cases hr : (lcdPrintChar env c s).1 ≠ LCD_OK
    · simp only [lcdPrintStr, if_pos hr]
      exact hI1
    · simp only [lcdPrintStr, if_neg hr]
      cases rest with
      | nil => exact hI1
      | cons q qs => exact ih _ hI1

theorem Inv_clear (env : Env) {s : DriverState} (hI : Inv s) :
    Inv (lcdClear env s).2 := by
  simp only [lcdClear]
  split
  · exact Inv_enq _ hI
  · split
    · exact Inv_enq _ (Inv_enq _ hI)
    · split
      · exact Inv_enq _ (Inv_enq _ (Inv_enq _ hI))
      · split
        · exact Inv_enq _ (Inv_enq _ (Inv_enq _ (Inv_enq _ hI)))
        · exact Inv_enqABF env _ (Inv_enq _ (Inv_enq _ (Inv_enq _ (Inv_enq _ hI))))

theorem Inv_returnHome (env : Env) {s : DriverState} (hI : Inv s) :
    Inv (lcdReturnHome env s).2 := by
  simp only [lcdReturnHome]
  split
  · exact Inv_enq _ hI
  · split
    · exact Inv_enq _ (Inv_enq _ hI)
    · split
      · exact Inv_enq _ (Inv_enq _ (Inv_enq _ hI))
      · split
        · exact Inv_enq _ (Inv_enq _ (Inv_enq _ (Inv_enq _ hI)))
        · exact Inv_enqABF env _ (Inv_enq _ (Inv_enq _ (Inv_enq _ (Inv_enq _ hI))))

theorem Inv_step {s : DriverState} (ev : Event) (hI : Inv s)
    (hv : Valid s ev) : Inv (step ev s) := by
  cases ev with
  | printChar c env => exact Inv_enqABF env _ hI
  | printStr junk l => exact Inv_printStr junk l s hI
  | apiEnq e env => exact Inv_enqABF env e hI
  | setBacklight b =>
    refine ⟨hI.hlen, hI.hr, hI.hc, hI.hw, ?_, hI.hcb, hI.htx, hI.hflag, ?_, hI.hframes⟩
    · show (if b then BL_ON else BL_OFF) = BL_OFF ∨ (if b then BL_ON else BL_OFF) = BL_ON
      cases b with
      | false => exact Or.inl rfl
      | true => exact Or.inr rfl
    · show s.transmitted.map Prod.fst ++
          liveListQ { s with bl := if b then BL_ON else BL_OFF } = s.enqueuedLog
      rw [liveListQ_congr s { s with bl := if b then BL_ON else BL_OFF } rfl rfl rfl]
      exact hI.hfifo
  | clear env => exact Inv_clear env hI
  | returnHome env => exact Inv_returnHome env hI
  | setCursorPos j r c env => exact Inv_enqABF env _ hI
  | pause =>
    exact Inv_of_fields (s := s) _ rfl rfl rfl rfl rfl rfl rfl rfl rfl hI.hflag hI
  | resume env =>
    show Inv (lcdQueueResume env s).2
    simp only [lcdQueueResume]
    by_cases hf : s.flushInProgress = true
    · rw [if_pos hf]
      exact Inv_of_fields (s := s) _ rfl rfl rfl rfl rfl rfl rfl rfl rfl hI.hflag hI
    · rw [if_neg hf]
      have hTcS : s.txCount = s.cbCount := by
        have := hI.hcb
        have := hI.htx
        rcases Nat.lt_or_ge s.txCount (s.cbCount + 1) with h | h
        · omega
        · exact absurd (hI.hflag (by omega)) hf
      have hIσ : Inv { s with qPaused := false, flushInProgress := true } :=
        Inv_of_fields (s := s) _ rfl rfl rfl rfl rfl rfl rfl rfl rfl
          (fun _ => rfl) hI
      exact Inv_flush env hIσ rfl hTcS
  | cbComplete env =>
    have hv' : s.txCount = s.cbCount + 1 := hv
    have hI1 : Inv { s with cbCount := s.cbCount + 1 } := by
      refine ⟨hI.hlen, hI.hr, hI.hc, hI.hw, hI.hbl, ?_, ?_, ?_, ?_, hI.hframes⟩
      · show s.cbCount + 1 ≤ s.txCount
        omega
      · show s.txCount ≤ s.cbCount + 1 + 1
        have := hI.htx
        omega
      · intro h
        exact absurd (show s.txCount = s.cbCount + 1 + 1 from h) (by omega)
      · show s.transmitted.map Prod.fst ++
            liveListQ { s with cbCount := s.cbCount + 1 } = s.enqueuedLog
        rw [liveListQ_congr s { s with cbCount := s.cbCount + 1 } rfl rfl rfl]
        exact hI.hfifo
    show Inv (lcdFlushQueue env { s with cbCount := s.cbCount + 1 })
    simp only [lcdFlushQueue]
    by_cases hp : s.qPaused = true
    · rw [if_pos hp]
      exact Inv_of_fields (s := { s with cbCount := s.cbCount + 1 }) _
        rfl rfl rfl rfl rfl rfl rfl rfl rfl
        (fun h => absurd (show s.txCount = s.cbCount + 1 + 1 from h) (by omega))
        hI1
    · rw [if_neg hp]
      have hF : ({ s with cbCount := s.cbCount + 1 } :
          DriverState).flushInProgress = true := hI.hflag hv'
      have hTc : ({ s with cbCount := s.cbCount + 1 } :
          DriverState).txCount
          = ({ s with cbCount := s.cbCount + 1 } : DriverState).cbCount := hv'
      exact Inv_setStatus _ (Inv_flush env hI1 hF hTc)
  | cbError =>
    have hv' : s.txCount = s.cbCount + 1 := hv
    show Inv { s with cbCount := s.cbCount + 1, flushInProgress := false }
    refine ⟨hI.hlen, hI.hr, hI.hc, hI.hw, hI.hbl, ?_, ?_, ?_, ?_, hI.hframes⟩
    · show s.cbCount + 1 ≤ s.txCount
      omega
    · show s.txCount ≤ s.cbCount + 1 + 1
      have := hI.htx
      omega
    · intro h
      exact absurd (show s.txCount = s.cbCount + 1 + 1 from h) (by omega)
    · show s.transmitted.map Prod.fst ++
          liveListQ { s with cbCount := s.cbCount + 1, flushInProgress := false }
          = s.enqueuedLog
      rw [liveListQ_congr s
        { s with cbCount := s.cbCount + 1, flushInProgress := false }
        rfl rfl rfl]
      exact hI.hfifo

theorem Inv_initState : Inv initState := by
  refine ⟨?_, ?_, ?_, ?_, ?_, ?_, ?_, ?_, ?_, ?_⟩
  · decide
  · decide
  · decide
  · decide
  · exact Or.inr rfl
  · decide
  · decide
  · decide
  · decide
  · intro p hp
    simp [initState] at hp

theorem reachable_inv {s : DriverState} (h : Reachable s) : Inv s := by
  induction h with
  | init => exact Inv_initState
  | next ev hR hv ih => exact Inv_step ev ih hv


theorem pow_two_eight : (2 : Nat) ^ 8 = 256 := by norm_num

theorem or_lt_256 {x y : Nat} (hx : x < 256) (hy : y < 256) :
    x ||| y < 256 := by
  rw [← pow_two_eight] at hx hy ⊢
  exact Nat.or_lt_two_pow hx hy

theorem and255_of_lt {x : Nat} (hx : x < 256) : x &&& 255 = x := by
  have h := Nat.and_pow_two_sub_one_of_lt_two_pow (n := 8) (x := x)
    (by rw [pow_two_eight]; exact hx)
  norm_num at h
  exact h

theorem mod256_eq_and255 (x : Nat) : x % 256 = x &&& 255 := by
  have h := Nat.and_pow_two_sub_one_eq_mod x 8
  norm_num at h
  exact h.symm

theorem and_shiftLeft_four (x : Nat) : (x <<< 4) &&& 240 = (x &&& 15) <<< 4 := by
  have h240 : (240 : Nat) = 15 <<< 4 := by decide
  rw [h240]
  apply Nat.eq_of_testBit_eq
  intro i
  simp only [Nat.testBit_and, Nat.testBit_shiftLeft]
  by_cases h : 4 ≤ i <;> simp [h]

theorem recon_nibbles {B : Nat} (hB : B < 256) :
    (B &&& 240) ||| ((B <<< 4) &&& 240) >>> 4 = B := by
  rw [and_shiftLeft_four, Nat.shiftLeft_shiftRight, ← Nat.and_or_distrib_left]
  have h : (240 ||| 15 : Nat) = 255 := by decide
  rw [h]
  exact and255_of_lt hB

theorem or3_mod_of_lt {x r b : Nat} (hx : x < 256) (hr : r < 256)
    (hb : b < 256) : (x ||| r ||| b) % 256 = x ||| r ||| b :=
  Nat.mod_eq_of_lt (or_lt_256 (or_lt_256 hx hr) hb)

theorem or3_mod_and {x r b : Nat} (hr : r < 256) (hb : b < 256) :
    (x ||| r ||| b) % 256 = (x &&& 255) ||| r ||| b := by
  rw [mod256_eq_and255, Nat.and_distrib_right, Nat.and_distrib_right,
    and255_of_lt hr, and255_of_lt hb]

/-- The full framing contract of `txFrame`, parametric in the
register-select and backlight bytes (both below 16 and clear of the
high-nibble mask). -/
theorem txFrame_spec (r b B : Nat) (hr : r < 16) (hb : b < 16)
    (hr0 : r &&& 240 = 0) (hb0 : b &&& 240 = 0) (hB : B < 256) :
    (txFrame b r B).length = 6 ∧
    (txFrame b r B).getD 0 0 = (txFrame b r B).getD 2 0 ∧
    (txFrame b r B).getD 3 0 = (txFrame b r B).getD 5 0 ∧
    (txFrame b r B).getD 1 0 = (txFrame b r B).getD 0 0 ||| 4 ∧
    (txFrame b r B).getD 4 0 = (txFrame b r B).getD 3 0 ||| 4 ∧
    (txFrame b r B).getD 0 0 = (B &&& 240) ||| r ||| b ∧
    (txFrame b r B).getD 3 0 = ((B <<< 4) &&& 255) ||| r ||| b ∧
    ((txFrame b r B).getD 0 0 &&& 240) |||
      (((txFrame b r B).getD 3 0 &&& 240) >>> 4) = B := by
  have hr' : r < 256 := by omega
  have hb' : b < 256 := by omega
  have e0 : (txFrame b r B).getD 0 0 = (B &&& 240) ||| r ||| b := by
    show ((B &&& 240) ||| r ||| b) % 256 = _
    exact or3_mod_of_lt (lt_of_le_of_lt Nat.and_le_right (by norm_num)) hr' hb'
  have e3 : (txFrame b r B).getD 3 0 = ((B <<< 4) &&& 255) ||| r ||| b := by
    show ((B <<< 4) ||| r ||| b) % 256 = _
    exact or3_mod_and hr' hb'
  have lt0 : (txFrame b r B).getD 0 0 < 256 := by
    show ((B &&& 240) ||| r ||| b) % 256 < 256
    exact Nat.mod_lt _ (by norm_num)
  have lt3 : (txFrame b r B).getD 3 0 < 256 := by
    show ((B <<< 4) ||| r ||| b) % 256 < 256
    exact Nat.mod_lt _ (by norm_num)
  refine ⟨rfl, rfl, rfl, ?_, ?_, e0, e3, ?_⟩
  · exact Nat.mod_eq_of_lt (or_lt_256 lt0 (by decide))
  · exact Nat.mod_eq_of_lt (or_lt_256 lt3 (by decide))
  · rw [e0, e3]
    simp only [Nat.and_distrib_right, hr0, hb0, Nat.or_zero]
    simp only [Nat.and_assoc]
    have h1 : (240 &&& 240 : Nat) = 240 := by decide
    have h2 : (255 &&& 240 : Nat) = 240 := by decide
    rw [h1, h2]
    exact recon_nibbles hB

/-- Claim C1: for every logical byte `B` with register-select `rs` and
backlight mask `bl`, the 6-byte frame built by `txByte` satisfies
`f[0] = f[2]`, `f[3] = f[5]`, `f[1] = f[0] ||| 0x04`,
`f[4] = f[3] ||| 0x04`, `f[0] = (B &&& 0xF0) ||| rs ||| bl`,
`f[3] = ((B <<< 4) &&& 0xFF) ||| rs ||| bl`, and the high nibbles of
`f[0]` and `f[3]` concatenated reconstruct `B`; in particular with
`rs = 1`, `bl = 0x08` the frame for 0x48 is
`[0x49, 0x4D, 0x49, 0x89, 0x8D, 0x89]` and the frame for 0x69 is
`[0x69, 0x6D, 0x69, 0x99, 0x9D, 0x99]`. -/
theorem C1_framing_correct :
    (∀ rs blv : Nat, (rs = RS_INSTR_REG ∨ rs = RS_DATA_REG) →
      (blv = BL_OFF ∨ blv = BL_ON) → ∀ B : Nat, B < 256 →
      (txFrame blv rs B).length = 6 ∧
      (txFrame blv rs B).getD 0 0 = (txFrame blv rs B).getD 2 0 ∧
      (txFrame blv rs B).getD 3 0 = (txFrame blv rs B).getD 5 0 ∧
      (txFrame blv rs B).getD 1 0 = (txFrame blv rs B).getD 0 0 ||| 0x04 ∧
      (txFrame blv rs B).getD 4 0 = (txFrame blv rs B).getD 3 0 ||| 0x04 ∧
      (txFrame blv rs B).getD 0 0 = (B &&& 0xF0) ||| rs ||| blv ∧
      (txFrame blv rs B).getD 3 0 = ((B <<< 4) &&& 0xFF) ||| rs ||| blv ∧
      ((txFrame blv rs B).getD 0 0 &&& 0xF0) |||
        (((txFrame blv rs B).getD 3 0 &&& 0xF0) >>> 4) = B) ∧
    txFrame BL_ON RS_DATA_REG 0x48 = [0x49, 0x4D, 0x49, 0x89, 0x8D, 0x89] ∧
    txFrame BL_ON RS_DATA_REG 0x69 = [0x69, 0x6D, 0x69, 0x99, 0x9D, 0x99] := by
  refine ⟨?_, by decide, by decide⟩
  intro rs blv hrs hbl B hB
  rcases hrs with rfl | rfl <;> rcases hbl with rfl | rfl <;>
    exact txFrame_spec _ _ B (by decide) (by decide) (by decide) (by decide) hB

/-- Witness for claim C1: the framing theorem applied at `B = 0x48`,
`rs = 1`, `bl = 0x08`. -/
theorem C1_framing_correct_witness :
    ((txFrame BL_ON RS_DATA_REG 0x48).getD 0 0 &&& 0xF0) |||
      (((txFrame BL_ON RS_DATA_REG 0x48).getD 3 0 &&& 0xF0) >>> 4) = 0x48 :=
  (C1_framing_correct.1 RS_DATA_REG BL_ON (Or.inr rfl) (Or.inr rfl) 0x48
    (by decide)).2.2.2.2.2.2.2

/-- Claim C2: FIFO order — in every reachable state, the entries handed to the
transmitter so far followed by the live queue contents equal the entries
enqueued so far, and each transmitted frame is the 6-byte expansion of
its entry under some backlight mask (frames are handed over atomically,
one `tx_dma` call per entry, so they are received contiguously and in
enqueue order). -/
theorem C2_fifo_order {s : DriverState} (h : Reachable s) :
    s.transmitted.map Prod.fst ++ liveListQ s = s.enqueuedLog ∧
    ∀ p ∈ s.transmitted, ∃ b, (b = BL_OFF ∨ b = BL_ON) ∧
      p.2 = txFrame b p.1.rs p.1.data :=
  ⟨(reachable_inv h).hfifo, (reachable_inv h).hframes⟩

/-- Witness for claim C2: the FIFO invariant evaluated after one `print_char`. -/
theorem C2_fifo_order_witness :
    (step (Event.printChar 72 envTX) initState).transmitted.map Prod.fst ++
        liveListQ (step (Event.printChar 72 envTX) initState)
      = (step (Event.printChar 72 envTX) initState).enqueuedLog ∧
    ∀ p ∈ (step (Event.printChar 72 envTX) initState).transmitted,
      ∃ b, (b = BL_OFF ∨ b = BL_ON) ∧ p.2 = txFrame b p.1.rs p.1.data :=
  C2_fifo_order (Reachable.next _ Reachable.init trivial)

/-- Claim C3: at most one DMA transfer is in flight — in every reachable
state, the number of accepted `tx_dma` initiations minus the number of
completion/error callbacks that have run is 0 or 1. -/
theorem C3_at_most_one_in_flight {s : DriverState} (h : Reachable s) :
    s.cbCount ≤ s.txCount ∧ s.txCount ≤ s.cbCount + 1 :=
  ⟨(reachable_inv h).hcb, (reachable_inv h).htx⟩

/-- Witness for claim C3: the accounting bound evaluated after a `print_char` and
its completion callback. -/
theorem C3_at_most_one_in_flight_witness :
    (step (Event.cbComplete envTX)
        (step (Event.printChar 65 envTX) initState)).cbCount ≤
      (step (Event.cbComplete envTX)
        (step (Event.printChar 65 envTX) initState)).txCount ∧
    (step (Event.cbComplete envTX)
        (step (Event.printChar 65 envTX) initState)).txCount ≤
      (step (Event.cbComplete envTX)
        (step (Event.printChar 65 envTX) initState)).cbCount + 1 :=
  C3_at_most_one_in_flight
    (Reachable.next _ (Reachable.next _ Reachable.init trivial)
      (show (step (Event.printChar 65 envTX) initState).txCount
          = (step (Event.printChar 65 envTX) initState).cbCount + 1
        by decide))

/-- Claim C7: when the transmitter refuses to begin the DMA transfer, the
flush step does not dequeue the peeked entry (read index, count, queue
contents and transmit log unchanged), clears `flushInProgress`, and
returns `LCD_I2C_TX_INIT_FAIL`. -/
theorem C7_tx_init_fail_atomic (env : Env) (s : DriverState)
    (hne : s.qEntryCount ≠ 0)
    (herr : ¬(env.errLatched = true ∧ s.i2cErrorPending = true))
    (hacc : env.txAccepts = false) :
    (flush env s).1 = LCD_I2C_TX_INIT_FAIL ∧
    (flush env s).2.qReadIdx = s.qReadIdx ∧
    (flush env s).2.qEntryCount = s.qEntryCount ∧
    (flush env s).2.queue = s.queue ∧
    (flush env s).2.transmitted = s.transmitted ∧
    (flush env s).2.txCount = s.txCount ∧
    (flush env s).2.flushInProgress = false := by
  rw [flush_txFail env s hne hacc herr]
  exact ⟨rfl, rfl, rfl, rfl, rfl, rfl, rfl⟩

/-- Witness for claim C7: the failed-transmit atomicity applied to a one-entry
queue with a refusing transmitter. -/
theorem C7_tx_init_fail_atomic_witness :
    (flush envRefuse oneEntryState).1 = LCD_I2C_TX_INIT_FAIL ∧
    (flush envRefuse oneEntryState).2.qReadIdx = oneEntryState.qReadIdx ∧
    (flush envRefuse oneEntryState).2.qEntryCount
      = oneEntryState.qEntryCount ∧
    (flush envRefuse oneEntryState).2.queue = oneEntryState.queue ∧
    (flush envRefuse oneEntryState).2.transmitted
      = oneEntryState.transmitted ∧
    (flush envRefuse oneEntryState).2.txCount = oneEntryState.txCount ∧
    (flush envRefuse oneEntryState).2.flushInProgress = false :=
  C7_tx_init_fail_atomic envRefuse oneEntryState (by decide) (by decide) rfl

/-- Claim C8: the code contradicts its own contract.  `lcdQueueIsPaused`
returns `qPaused && flushInProgress`, although its header comment says
it "checks whether the queue is paused and no entry is being
transmitted".  After `pause()` during an in-flight transfer followed by
the completion callback, the queue is paused and no transfer is in
flight (`txCount = cbCount`), yet `lcdQueueIsPaused` returns `false`. -/
theorem C8_is_paused_code_eval :
    Reachable (step (Event.cbComplete envTX)
      (step Event.pause (step (Event.printChar 72 envTX) initState))) ∧
    (step (Event.cbComplete envTX)
      (step Event.pause
        (step (Event.printChar 72 envTX) initState))).qPaused = true ∧
    (step (Event.cbComplete envTX)
      (step Event.pause
        (step (Event.printChar 72 envTX) initState))).flushInProgress
      = false ∧
    (step (Event.cbComplete envTX)
      (step Event.pause
        (step (Event.printChar 72 envTX) initState))).txCount
      = (step (Event.cbComplete envTX)
          (step Event.pause
            (step (Event.printChar 72 envTX) initState))).cbCount ∧
    lcdQueueIsPaused (step (Event.cbComplete envTX)
      (step Event.pause (step (Event.printChar 72 envTX) initState)))
      = false := by
  refine ⟨?_, by decide, by decide, by decide, by decide⟩
  exact Reachable.next _
    (Reachable.next _ (Reachable.next _ Reachable.init trivial) trivial)
    (show (step Event.pause
          (step (Event.printChar 72 envTX) initState)).txCount
        = (step Event.pause
            (step (Event.printChar 72 envTX) initState)).cbCount + 1
      by decide)


theorem enq_ok_fields (e : QueueEntry) (s : DriverState)
    (h : s.qEntryCount < QUEUE_SIZE) :
    (enq e s).1 = LCD_OK ∧
    (enq e s).2.qEntryCount = s.qEntryCount + 1 ∧
    (enq e s).2.qPaused = s.qPaused ∧
    (enq e s).2.flushInProgress = s.flushInProgress ∧
    (enq e s).2.i2cErrorPending = s.i2cErrorPending ∧
    (enq e s).2.bl = s.bl ∧
    (enq e s).2.transmitted = s.transmitted ∧
    (enq e s).2.enqueuedLog = s.enqueuedLog ++ [e] := by
  rw [enq_lt_eq e s h]
  exact ⟨rfl, rfl, rfl, rfl, rfl, rfl, rfl, rfl⟩

theorem flush_log (env : Env) (s : DriverState) :
    (flush env s).2.enqueuedLog = s.enqueuedLog := by
  by_cases h0 : s.qEntryCount = 0
  · rw [flush_empty env s h0]
  · by_cases herr : env.errLatched = true ∧ s.i2cErrorPending = true
    · rw [flush_errPause env s h0 herr.1 herr.2]
    · cases hacc : env.txAccepts with
      | false => rw [flush_txFail env s h0 hacc herr]
      | true => rw [flush_txOk env s h0 hacc herr]

theorem flush_ok_fields (env : Env) (s : DriverState)
    (h0 : s.qEntryCount ≠ 0) (he : env.errLatched = false)
    (hacc : env.txAccepts = true) :
    (flush env s).1 = LCD_OK ∧
    (flush env s).2.qEntryCount = s.qEntryCount - 1 ∧
    (flush env s).2.qPaused = s.qPaused ∧
    (flush env s).2.flushInProgress = s.flushInProgress ∧
    (flush env s).2.enqueuedLog = s.enqueuedLog ∧
    (flush env s).2.transmitted.length = s.transmitted.length + 1 := by
  rw [flush_txOk env s h0 hacc (by simp [he])]
  refine ⟨rfl, rfl, rfl, rfl, rfl, ?_⟩
  show (s.transmitted ++ [_]).length = s.transmitted.length + 1
  simp

theorem enqABF_log (env : Env) (e : QueueEntry) (s : DriverState)
    (hlt : s.qEntryCount < QUEUE_SIZE) :
    (enqAndBeginFlushing env e s).2.enqueuedLog = s.enqueuedLog ++ [e] := by
  have E := enq_ok_fields e s hlt
  simp only [enqAndBeginFlushing]
  rw [if_neg (by simp [E.1])]
  by_cases hb : ((enq e s).2.flushInProgress || (enq e s).2.qPaused) = true
  · rw [if_pos hb]
    exact E.2.2.2.2.2.2.2
  · rw [if_neg hb]
    show (flush env { (enq e s).2 with flushInProgress := true }).2.enqueuedLog
      = s.enqueuedLog ++ [e]
    rw [flush_log]
    exact E.2.2.2.2.2.2.2

theorem enqABF_kick_ok (env : Env) (e : QueueEntry) (s : DriverState)
    (hlt : s.qEntryCount < QUEUE_SIZE) (hf : s.flushInProgress = false)
    (hp : s.qPaused = false) (he : env.errLatched = false)
    (hacc : env.txAccepts = true) :
    (enqAndBeginFlushing env e s).1 = LCD_OK ∧
    (enqAndBeginFlushing env e s).2.qEntryCount = s.qEntryCount ∧
    (enqAndBeginFlushing env e s).2.enqueuedLog = s.enqueuedLog ++ [e] ∧
    (enqAndBeginFlushing env e s).2.transmitted.length
      = s.transmitted.length + 1 := by
  have E := enq_ok_fields e s hlt
  simp only [enqAndBeginFlushing]
  rw [if_neg (by simp [E.1])]
  have hb : ((enq e s).2.flushInProgress || (enq e s).2.qPaused) = true ↔ False := by
    simp [E.2.2.1, E.2.2.2.1, hf, hp]
  rw [if_neg (by simp [hb])]
  have hF := flush_ok_fields env { (enq e s).2 with flushInProgress := true }
    (by show (enq e s).2.qEntryCount ≠ 0; rw [E.2.1]; omega) he hacc
  refine ⟨hF.1, ?_, ?_, ?_⟩
  · show (flush env _).2.qEntryCount = s.qEntryCount
    rw [hF.2.1]
    show (enq e s).2.qEntryCount - 1 = s.qEntryCount
    rw [E.2.1]
    omega
  · show (flush env _).2.enqueuedLog = s.enqueuedLog ++ [e]
    rw [hF.2.2.2.2.1]
    exact E.2.2.2.2.2.2.2
  · show (flush env _).2.transmitted.length = s.transmitted.length + 1
    rw [hF.2.2.2.2.2]
    show (enq e s).2.transmitted.length + 1 = s.transmitted.length + 1
    rw [E.2.2.2.2.2.2.1]

/-- Claim C4: paired-error policy of the transmit step.  On a flush step with
a nonempty queue: a latched error with `i2cErrorPending` already set
pauses the queue, clears the pending flag and returns `LCD_I2C_ERROR`
without transmitting or dequeuing; a latched error without prior
pending sets the flag and the transfer proceeds; no latched error
clears the flag.  Consequently, when every transfer latches an error,
after the second transfer attempt `lcdStatus = LCD_I2C_ERROR` and the
queue is paused, while a single transient error leaves the queue
unpaused and later entries transmit normally. -/
theorem C4_paired_error_policy :
    (∀ (env : Env) (s : DriverState), s.qEntryCount ≠ 0 →
      (env.errLatched = true → s.i2cErrorPending = true →
        (flush env s).1 = LCD_I2C_ERROR ∧
        (flush env s).2.qPaused = true ∧
        (flush env s).2.i2cErrorPending = false ∧
        (flush env s).2.transmitted = s.transmitted ∧
        (flush env s).2.txCount = s.txCount ∧
        (flush env s).2.qEntryCount = s.qEntryCount ∧
        (flush env s).2.qReadIdx = s.qReadIdx) ∧
      (env.errLatched = true → s.i2cErrorPending = false →
        env.txAccepts = true →
        (flush env s).1 = LCD_OK ∧
        (flush env s).2.i2cErrorPending = true ∧
        (flush env s).2.qPaused = s.qPaused ∧
        (flush env s).2.transmitted = s.transmitted ++
          [(s.queue.getD s.qReadIdx ⟨0, 0⟩,
            txFrame s.bl (s.queue.getD s.qReadIdx ⟨0, 0⟩).rs
              (s.queue.getD s.qReadIdx ⟨0, 0⟩).data)]) ∧
      (env.errLatched = false →
        (flush env s).2.i2cErrorPending = false)) ∧
    (step (Event.cbComplete envErrTX)
      (step (Event.printChar 66 envErrTX)
        (step (Event.printChar 65 envErrTX) initState))).lcdStatus
      = LCD_I2C_ERROR ∧
    (step (Event.cbComplete envErrTX)
      (step (Event.printChar 66 envErrTX)
        (step (Event.printChar 65 envErrTX) initState))).qPaused = true ∧
    (step (Event.cbComplete envTX)
      (step (Event.cbComplete envErrTX)
        (step (Event.printChar 67 envTX)
          (step (Event.printChar 66 envTX)
            (step (Event.printChar 65 envTX) initState))))).qPaused
      = false ∧
    (step (Event.cbComplete envTX)
      (step (Event.cbComplete envErrTX)
        (step (Event.printChar 67 envTX)
          (step (Event.printChar 66 envTX)
            (step (Event.printChar 65 envTX)
              initState))))).transmitted.map (fun p => p.1.data)
      = [65, 66, 67] := by
  refine ⟨?_, by decide, by decide, by decide, by decide⟩
  intro env s h0
  refine ⟨?_, ?_, ?_⟩
  · intro he hp
    rw [flush_errPause env s h0 he hp]
    exact ⟨rfl, rfl, rfl, rfl, rfl, rfl, rfl⟩
  · intro he hp hacc
    rw [flush_txOk env s h0 hacc (by simp [hp])]
    exact ⟨rfl, he, rfl, rfl⟩
  · intro he
    cases hacc : env.txAccepts with
    | false =>
      rw [flush_txFail env s h0 hacc (by simp [he])]
      exact he
    | true =>
      rw [flush_txOk env s h0 hacc (by simp [he])]
      exact he

/-- Witness for claim C4: the paired-error pause applied to a one-entry queue
with a pending error and a latched error. -/
theorem C4_paired_error_policy_witness :
    (flush envErrTX
      { initState with qEntryCount := 1, i2cErrorPending := true }).1
      = LCD_I2C_ERROR ∧
    (flush envErrTX
      { initState with qEntryCount := 1, i2cErrorPending := true }).2.qPaused
      = true :=
  ⟨((C4_paired_error_policy.1 envErrTX
      { initState with qEntryCount := 1, i2cErrorPending := true }
      (by decide)).1 rfl rfl).1,
   ((C4_paired_error_policy.1 envErrTX
      { initState with qEntryCount := 1, i2cErrorPending := true }
      (by decide)).1 rfl rfl).2.1⟩

/-- Counterexample for claim C5: on a paused but non-full queue, `enq` accepts
the entry and returns `LCD_OK`, not `LCD_QUEUE_PAUSED_AND_FULL`; the
queue state changes. -/
theorem C5_enq_cex :
    (enq ⟨RS_DATA_REG, 72⟩ pausedEmptyState).1 = LCD_OK ∧
    (enq ⟨RS_DATA_REG, 72⟩ pausedEmptyState).1
      ≠ LCD_QUEUE_PAUSED_AND_FULL ∧
    (enq ⟨RS_DATA_REG, 72⟩ pausedEmptyState).2.qEntryCount = 1 := by
  decide

/-- Claim C5 (amended): `LCD_QUEUE_PAUSED_AND_FULL` is returned (entry
discarded, state unchanged) only when the queue is paused AND full on
entry; a full unpaused queue that stays full past the 10 ms deadline is
paused and yields `LCD_QUEUE_FULL_TIMEOUT` with the entry discarded;
otherwise — including paused-but-not-full — the entry is written at
`qWriteIdx`, the index advances mod 32, the count increments, and
`LCD_OK` is returned. -/
theorem C5_enq_contract (e : QueueEntry) (s : DriverState) :
    (s.qEntryCount ≥ QUEUE_SIZE → s.qPaused = true →
      enq e s = (LCD_QUEUE_PAUSED_AND_FULL, s)) ∧
    (s.qEntryCount ≥ QUEUE_SIZE → s.qPaused = false →
      (enq e s).1 = LCD_QUEUE_FULL_TIMEOUT ∧
      (enq e s).2.qPaused = true ∧
      (enq e s).2.qEntryCount = s.qEntryCount ∧
      (enq e s).2.queue = s.queue ∧
      (enq e s).2.enqueuedLog = s.enqueuedLog) ∧
    (s.qEntryCount < QUEUE_SIZE →
      (enq e s).1 = LCD_OK ∧
      (enq e s).2.queue = s.queue.set s.qWriteIdx e ∧
      (enq e s).2.qWriteIdx = (s.qWriteIdx + 1) % QUEUE_SIZE ∧
      (enq e s).2.qEntryCount = s.qEntryCount + 1 ∧
      (enq e s).2.qPaused = s.qPaused ∧
      (enq e s).2.enqueuedLog = s.enqueuedLog ++ [e]) := by
  refine ⟨?_, ?_, ?_⟩
  · intro hfull hp
    exact enq_full_paused e s hfull hp
  · intro hfull hp
    rw [enq_full_timeout e s hfull hp]
    exact ⟨rfl, rfl, rfl, rfl, rfl⟩
  · intro hlt
    rw [enq_lt_eq e s hlt]
    exact ⟨rfl, rfl, rfl, rfl, rfl, rfl⟩

/-- Witness for claim C5: the paused-and-full case applied to a concretely full,
paused queue. -/
theorem C5_enq_contract_witness :
    enq ⟨RS_DATA_REG, 72⟩ fullPausedState
      = (LCD_QUEUE_PAUSED_AND_FULL, fullPausedState) :=
  (C5_enq_contract ⟨RS_DATA_REG, 72⟩ fullPausedState).1 (by decide) rfl


/-- Counterexample for claim C6: `lcdClear` enqueues five entries, not four — the
final `enqAndBeginFlushing` call re-enqueues the zero entry after the
three-iteration padding loop.  With a transfer already in flight (so
the kicked flush does not consume anything), the count rises by 5 and
the enqueue log shows `(INSTR, 0x01)` plus four `(INSTR, 0x00)`. -/
theorem C6_clear_cex :
    (lcdClear envTX busyState).1 = LCD_OK ∧
    (lcdClear envTX busyState).2.enqueuedLog
      = [⟨RS_INSTR_REG, CLEAR_DISPLAY_INSTR⟩, ⟨RS_INSTR_REG, 0⟩,
         ⟨RS_INSTR_REG, 0⟩, ⟨RS_INSTR_REG, 0⟩, ⟨RS_INSTR_REG, 0⟩] ∧
    (lcdClear envTX busyState).2.qEntryCount = 5 := by
  decide

/-- Claim C6 (amended): `clear()` enqueues exactly 5 entries — `(INSTR,
0x01)` followed by four `(INSTR, 0x00)` padding entries; on a queue
with at least 5 free slots and the pipeline idle, a successful
`clear()` returns `LCD_OK` and raises `qEntryCount` by exactly 4,
because the kicked flush immediately hands one entry to the
transmitter and dequeues it. -/
theorem C6_clear_count (env : Env) (s : DriverState)
    (hfree : s.qEntryCount + 5 ≤ QUEUE_SIZE)
    (hidle : s.flushInProgress = false) (hp : s.qPaused = false)
    (he : env.errLatched = false) (hacc : env.txAccepts = true) :
    (lcdClear env s).1 = LCD_OK ∧
    (lcdClear env s).2.qEntryCount = s.qEntryCount + 4 ∧
    (lcdClear env s).2.enqueuedLog = s.enqueuedLog ++
      [⟨RS_INSTR_REG, CLEAR_DISPLAY_INSTR⟩, ⟨RS_INSTR_REG, 0⟩,
       ⟨RS_INSTR_REG, 0⟩, ⟨RS_INSTR_REG, 0⟩, ⟨RS_INSTR_REG, 0⟩] ∧
    (lcdClear env s).2.transmitted.length = s.transmitted.length + 1 := by
  have hfree32 : s.qEntryCount + 5 ≤ 32 := by
    simpa [QUEUE_SIZE] using hfree
  have E1 := enq_ok_fields ⟨RS_INSTR_REG, CLEAR_DISPLAY_INSTR⟩ s
    (by simp only [QUEUE_SIZE]; omega)
  have E2 := enq_ok_fields ⟨RS_INSTR_REG, 0⟩ _
    (by rw [E1.2.1]; simp only [QUEUE_SIZE]; omega)
  have E3 := enq_ok_fields ⟨RS_INSTR_REG, 0⟩ _
    (by rw [E2.2.1, E1.2.1]; simp only [QUEUE_SIZE]; omega)
  have E4 := enq_ok_fields ⟨RS_INSTR_REG, 0⟩ _
    (by rw [E3.2.1, E2.2.1, E1.2.1]; simp only [QUEUE_SIZE]; omega)
  have K := enqABF_kick_ok env ⟨RS_INSTR_REG, 0⟩ _
    (by rw [E4.2.1, E3.2.1, E2.2.1, E1.2.1]; simp only [QUEUE_SIZE]; omega)
    (by rw [E4.2.2.2.1, E3.2.2.2.1, E2.2.2.2.1, E1.2.2.2.1]; exact hidle)
    (by rw [E4.2.2.1, E3.2.2.1, E2.2.2.1, E1.2.2.1]; exact hp)
    he hacc
  simp only [lcdClear]
  split
  · next h => exact absurd E1.1 h
  · split
    · next h => exact absurd E2.1 h
    · split
      · next h => exact absurd E3.1 h
      · split
        · next h => exact absurd E4.1 h
        · refine ⟨K.1, ?_, ?_, ?_⟩
          · rw [K.2.1, E4.2.1, E3.2.1, E2.2.1, E1.2.1]
          · rw [K.2.2.1, E4.2.2.2.2.2.2.2, E3.2.2.2.2.2.2.2,
              E2.2.2.2.2.2.2.2, E1.2.2.2.2.2.2.2]
            simp
          · rw [K.2.2.2, E4.2.2.2.2.2.2.1, E3.2.2.2.2.2.2.1,
              E2.2.2.2.2.2.2.1, E1.2.2.2.2.2.2.1]

/-- Witness for claim C6: the amended clear contract applied to the fresh idle
driver state. -/
theorem C6_clear_count_witness :
    (lcdClear envTX initState).1 = LCD_OK ∧
    (lcdClear envTX initState).2.qEntryCount = 4 :=
  ⟨(C6_clear_count envTX initState (by decide) rfl rfl rfl rfl).1,
   (C6_clear_count envTX initState (by decide) rfl rfl rfl rfl).2.1⟩

/-- Counterexample for claim C9: `set_cursor_pos` with row 4 is not a noop — it
still enqueues one `(INSTR, d)` entry whose data byte is the
indeterminate prior value of the local entry, and the queue state
changes. -/
theorem C9_row_ge4_cex :
    (lcdSetCursorPos envTX 0xAB 4 0 busyState).2.qEntryCount = 1 ∧
    (lcdSetCursorPos envTX 0xAB 4 0 busyState).2.enqueuedLog
      = [⟨RS_INSTR_REG, 0xAB⟩] ∧
    ¬((lcdSetCursorPos envTX 0xAB 4 0 busyState).2 = busyState) := by
  decide

/-- Claim C9 (amended): for rows 0–3, `set_cursor_pos(row, col)` enqueues
exactly one entry `(INSTR, (0x80 + base(row) + col) % 256)` with bases
0x00, 0x40, 0x14, 0x54 — in particular `set_cursor_pos(1, 3)` enqueues
`(INSTR, 0xC3)` — while for every row ≥ 4 it enqueues exactly one
entry `(INSTR, d)` where `d` is the indeterminate prior value of the
local entry's data field (the queue is not left unchanged). -/
theorem C9_set_cursor_pos (env : Env) (junkData col : Nat)
    (s : DriverState) (hlt : s.qEntryCount < QUEUE_SIZE) :
    ((lcdSetCursorPos env junkData 0 col s).2.enqueuedLog
      = s.enqueuedLog ++ [⟨RS_INSTR_REG, (0x80 + col) % 256⟩]) ∧
    ((lcdSetCursorPos env junkData 1 col s).2.enqueuedLog
      = s.enqueuedLog ++ [⟨RS_INSTR_REG, (0x80 + 0x40 + col) % 256⟩]) ∧
    ((lcdSetCursorPos env junkData 2 col s).2.enqueuedLog
      = s.enqueuedLog ++ [⟨RS_INSTR_REG, (0x80 + 0x14 + col) % 256⟩]) ∧
    ((lcdSetCursorPos env junkData 3 col s).2.enqueuedLog
      = s.enqueuedLog ++ [⟨RS_INSTR_REG, (0x80 + 0x54 + col) % 256⟩]) ∧
    (∀ row, 4 ≤ row →
      (lcdSetCursorPos env junkData row col s).2.enqueuedLog
        = s.enqueuedLog ++ [⟨RS_INSTR_REG, junkData⟩]) ∧
    (lcdSetCursorPos envTX 0 1 3 busyState).2.enqueuedLog
      = [⟨RS_INSTR_REG, 0xC3⟩] := by
  have h40 : ((0x80 ||| 0x40 : Nat)) = 0x80 + 0x40 := by decide
  have h14 : ((0x80 ||| 0x14 : Nat)) = 0x80 + 0x14 := by decide
  have h54 : ((0x80 ||| 0x54 : Nat)) = 0x80 + 0x54 := by decide
  have h00 : ((0x80 ||| 0 : Nat)) = 0x80 := by decide
  refine ⟨?_, ?_, ?_, ?_, ?_, by decide⟩
  · show (enqAndBeginFlushing env
      ⟨RS_INSTR_REG, ((0x80 ||| 0) + col) % 256⟩ s).2.enqueuedLog = _
    rw [enqABF_log env _ s hlt, h00]
  · show (enqAndBeginFlushing env
      ⟨RS_INSTR_REG, ((0x80 ||| 0x40) + col) % 256⟩ s).2.enqueuedLog = _
    rw [enqABF_log env _ s hlt, h40]
  · show (enqAndBeginFlushing env
      ⟨RS_INSTR_REG, ((0x80 ||| 0x14) + col) % 256⟩ s).2.enqueuedLog = _
    rw [enqABF_log env _ s hlt, h14]
  · show (enqAndBeginFlushing env
      ⟨RS_INSTR_REG, ((0x80 ||| 0x54) + col) % 256⟩ s).2.enqueuedLog = _
    rw [enqABF_log env _ s hlt, h54]
  · intro row hrow
    obtain ⟨k, rfl⟩ : ∃ k, row = k + 4 := ⟨row - 4, by omega⟩
    show (enqAndBeginFlushing env
      ⟨RS_INSTR_REG, junkData⟩ s).2.enqueuedLog = _
    exact enqABF_log env _ s hlt

/-- Witness for claim C9: the cursor-position contract applied to row 1, col 3
on a busy pipeline. -/
theorem C9_set_cursor_pos_witness :
    (lcdSetCursorPos envTX 7 1 3 busyState).2.enqueuedLog
      = busyState.enqueuedLog
        ++ [⟨RS_INSTR_REG, (0x80 + 0x40 + 3) % 256⟩] :=
  (C9_set_cursor_pos envTX 7 3 busyState (by decide)).2.1

/-- Claim C10: `lcdPrintStr` on the empty string runs the loop zero times,
enqueues nothing, starts no transfer (the state is returned untouched)
and returns the never-initialised local status variable, so its return
value is indeterminate and in particular not guaranteed to be
`LCD_OK`; on a non-empty string the result does not depend on that
local's initial value: the characters are printed in order and the
first non-OK status (or the final OK) is returned. -/
theorem C10_print_str_uninit :
    (∀ (junk : LCDStatus) (s : DriverState),
      lcdPrintStr junk [] s = (junk, s)) ∧
    (lcdPrintStr LCD_I2C_ERROR [] initState).1 ≠ LCD_OK ∧
    (∀ (junk1 junk2 : LCDStatus) (l : List (Nat × Env)) (s : DriverState),
      l ≠ [] → lcdPrintStr junk1 l s = lcdPrintStr junk2 l s) ∧
    (∀ (junk : LCDStatus) (c : Nat) (env : Env) (rest : List (Nat × Env))
      (s : DriverState), (lcdPrintChar env c s).1 ≠ LCD_OK →
      lcdPrintStr junk ((c, env) :: rest) s = lcdPrintChar env c s) ∧
    (∀ (junk : LCDStatus) (c : Nat) (env : Env) (s : DriverState),
      (lcdPrintChar env c s).1 = LCD_OK →
      lcdPrintStr junk [(c, env)] s = lcdPrintChar env c s) := by
  refine ⟨fun junk s => rfl, by decide, ?_, ?_, ?_⟩
  · intro j1 j2 l
    induction l with
    | nil => intro s h; exact absurd rfl h
    | cons p rest ih =>
      intro s h
      obtain ⟨c, env⟩ := p
      by_cases hc : (lcdPrintChar env c s).1 ≠ LCD_OK
      · simp only [lcdPrintStr]
        rw [if_pos hc, if_pos hc]
      · simp only [lcdPrintStr]
        rw [if_neg hc, if_neg hc]
        cases rest with
        | nil => rfl
        | cons q qs => exact ih _ (by simp)
  · intro junk c env rest s h
    simp only [lcdPrintStr]
    rw [if_pos h]
  · intro junk c env s h
    simp only [lcdPrintStr]
    rw [if_neg (fun hh => hh h)]

/-- Witness for claim C10: junk-independence of `lcdPrintStr` on a non-empty
string, applied at two distinct junk values. -/
theorem C10_print_str_uninit_witness :
    lcdPrintStr LCD_OK [(72, envTX)] initState
      = lcdPrintStr LCD_I2C_ERROR [(72, envTX)] initState :=
  C10_print_str_uninit.2.2.1 LCD_OK LCD_I2C_ERROR [(72, envTX)] initState
    (by simp)

end LCDDriver
